import Mathlib

/-!
Verification development for the inspektor repository: a shallow embedding of
the telemetry-collection and diagnostic-analysis engine (snapshot builder,
port resolver, dual-mode analyzer) together with theorems settling the
specification claims about it.

Conventions of the embedding:
* Go `float64`/`float32` values (CPU and memory percentages) are modelled as
  `Rat`; the threshold comparisons of the rule engine are exact on these.
* Go `uint64` byte counts are modelled as `Nat`; where the source wraps
  (the `MemoryRSS*3` product) the embedding takes the result mod `2^64`.
* Go `time.Time`/`time.Duration` are modelled as `Int` nanoseconds since the
  Unix epoch; `time.Since(t)` at wall-clock instant `now` is `now - t`.
* Fallible Go calls return `Option`; a nil-pointer dereference (a panic)
  makes the surrounding computation return `none`.
* Go strings are Lean `String`s; the handful of `strings` library functions
  the source uses (`Split` on "\n", `TrimSpace`, `HasPrefix`, `TrimPrefix`,
  `ToLower`) are given explicit executable definitions over `String.data`
  below so that every theorem can be evaluated by the kernel.
-/

/-- `strings.HasPrefix` at the level of character lists. -/
def hasPrefixChars : List Char → List Char → Bool
  | [], _ => true
  | _ :: _, [] => false
  | p :: ps, c :: cs => p == c && hasPrefixChars ps cs

/-- Embedding of Go `strings.HasPrefix s pre`. -/
def strHasPre (s pre : String) : Bool :=
  hasPrefixChars pre.data s.data

/-- Embedding of Go `strings.TrimPrefix s pre`: drops `pre` when it is a
prefix of `s`, otherwise returns `s` unchanged. -/
def strTrimPre (s pre : String) : String :=
  if strHasPre s pre then String.mk (s.data.drop pre.data.length) else s

/-- Embedding of Go `strings.TrimSpace`: drops leading and trailing
whitespace.  (Go trims by `unicode.IsSpace`; the claims only exercise the
common whitespace characters covered by `Char.isWhitespace`.) -/
def goTrim (s : String) : String :=
  String.mk (((s.data.dropWhile Char.isWhitespace).reverse.dropWhile Char.isWhitespace).reverse)

/-- Embedding of Go `strings.ToLower`. -/
def goToLower (s : String) : String :=
  String.mk (s.data.map Char.toLower)

/-- Splitting on the newline character, the core of
`strings.Split(response, "\n")`: `cur` is the (reversed) current segment. -/
def splitNL : List Char → List Char → List String
  | [], cur => [String.mk cur.reverse]
  | c :: cs, cur =>
    if c = '\n' then String.mk cur.reverse :: splitNL cs []
    else splitNL cs (c :: cur)

/-- Embedding of Go `strings.Split(s, "\n")`. -/
def goSplitLines (s : String) : List String :=
  splitNL s.data []

/-- `2^64`, the modulus of Go `uint64` arithmetic. -/
def uint64Mod : Nat := 18446744073709551616

/-- `time.Minute` in nanoseconds. -/
def minuteNs : Int := 60000000000

/-- Decimal rendering of a rational with two digits after the point,
embedding Go's `%.2f` verb.  (Go formats the binary float with ties broken
to even; this exact-rational version rounds ties up.  No claim probes a
tie.) -/
def fmt2f (x : Rat) : String :=
  let y : Rat := if x < 0 then -x else x
  let n : Nat := (y * 100 + 1/2).floor.toNat
  let fracStr := if n % 100 < 10 then "0" ++ toString (n % 100) else toString (n % 100)
  (if x < 0 then "-" else "") ++ toString (n / 100) ++ "." ++ fracStr

/-- Decimal rendering of a rational with one digit after the point,
embedding Go's `%.1f` verb. -/
def fmt1f (x : Rat) : String :=
  let y : Rat := if x < 0 then -x else x
  let n : Nat := (y * 10 + 1/2).floor.toNat
  (if x < 0 then "-" else "") ++ toString (n / 10) ++ "." ++ toString (n % 10)

/-- The division loop of `formatBytes`:
`for n := bytes / unit; n >= unit; n /= unit { div *= unit; exp++ }`.
The loop runs at most six times for any `uint64` input, so a fuel of 7 makes
the fuel bound unreachable. -/
def fbLoop : Nat → Nat → Nat → Nat → Nat × Nat
  | 0, _, div, exp => (div, exp)
  | fuel + 1, n, div, exp =>
    if n ≥ 1024 then fbLoop fuel (n / 1024) (div * 1024) (exp + 1) else (div, exp)

/-- Embedding of `formatBytes` (analyzer package): human-readable byte
counts.  The final `float64(bytes)/float64(div)` is modelled as exact
rational division. -/
def formatBytes (bytes : Nat) : String :=
  if bytes < 1024 then toString bytes ++ " B"
  else
    let de := fbLoop 7 (bytes / 1024) 1024 0
    fmt1f ((bytes : Rat) / (de.1 : Rat)) ++ " " ++ String.mk ["KMGTPE".data.getD de.2 '?'] ++ "B"

/-- `models.ProcessInfo`. -/
structure ProcessInfo where
  PID : Int
  Name : String
  Executable : String
  CommandLine : String
  WorkingDir : String
  Status : String
  CPUPercent : Rat
  MemoryRSS : Nat
  MemoryVMS : Nat
  MemoryPercent : Rat
  CreateTime : Int
  Connections : Nat
  OpenFiles : Nat
  Children : Nat
deriving DecidableEq

/-- `models.SystemInfo`. -/
structure SystemInfo where
  CPUCores : Nat
  CPUModel : String
  CPUUsage : Rat
  MemoryTotal : Nat
  MemoryUsed : Nat
  MemoryPercent : Rat
  MemoryFree : Nat
deriving DecidableEq

/-- `models.InspectionData`. -/
structure InspectionData where
  Process : ProcessInfo
  System : SystemInfo
deriving DecidableEq

/-! ## Rule-message strings

Each definition is the exact format string of the corresponding
`fmt.Sprintf` call in the analyzer (part_003), with the verbs `%.2f`,
`%.1f`, `%d` and `%s` replaced by the formatting helpers above.  The
concatenations are right-nested so that the leading constant literal is the
left operand of the outermost append. -/

def highCPUMsg (x : Rat) : String :=
  "High CPU usage detected: Process consuming " ++
    (fmt2f x ++ "% CPU - investigate for performance bottlenecks")

def moderateCPUMsg (x : Rat) : String :=
  "Moderate CPU usage: Process using " ++
    (fmt2f x ++ "% CPU - monitor for sustained high usage")

def criticalSysCPUMsg (x : Rat) : String :=
  "Critical system CPU load: " ++
    (fmt2f x ++ "% usage - immediate attention required")

def highSysCPUMsg (x : Rat) : String :=
  "High system CPU load: " ++ (fmt2f x ++ "% usage - consider load balancing")

def highProcMemMsg (p : Rat) (rss : Nat) : String :=
  "High memory usage: Process using " ++
    (fmt2f p ++ ("% of system memory (" ++ (formatBytes rss ++ " RSS)")))

def memLeakMsg (vms rss : Nat) : String :=
  "Potential memory leak: Virtual memory (" ++
    (formatBytes vms ++ (") significantly exceeds RSS (" ++ (formatBytes rss ++ ")")))

def criticalSysMemMsg (p : Rat) : String :=
  "Critical memory pressure: System at " ++ (fmt2f p ++ "% - risk of OOM kills")

def highSysMemMsg (p : Rat) : String :=
  "High memory usage: System at " ++ (fmt2f p ++ "% - consider memory optimization")

def recentMsg : String :=
  "Recently started process - monitor for stability during initialization"

def zombieMsg : String :=
  "Zombie process detected - parent should reap this process"

def stoppedMsg : String :=
  "Process is currently stopped - may need manual intervention"

def highFDMsg (n : Nat) : String :=
  "High file descriptor usage: " ++
    (toString n ++ " open files - check for file descriptor leaks")

def highConnMsg (n : Nat) : String :=
  "High network connections: " ++
    (toString n ++ " active connections - monitor for connection leaks")

def manyChildMsg (n : Nat) : String :=
  "Many child processes: " ++
    (toString n ++ " children - ensure proper process management")

def limitedCPUMsg (cores : Nat) (u : Rat) : String :=
  "Limited CPU resources: Only " ++
    (toString cores ++ (" cores with " ++ (fmt2f u ++ "% usage - consider scaling up")))

def lowFreeMemMsg (free total : Nat) : String :=
  "Low free memory: Only " ++
    (fmt1f ((free : Rat) / (total : Rat) * 100) ++
      ("% free (" ++ (formatBytes free ++ ") - system may become unstable")))

/-! ## Rule-based analyzer (part_003, `analyzeWithRules` and its four groups)

Each Go `warnings = append(warnings, ...)` under an `if` is embedded as an
appended `if _ then [msg] else []` segment, in source order. -/

/-- `analyzeCPU`. -/
def analyzeCPU (d : InspectionData) : List String :=
  (if d.Process.CPUPercent > 80 then [highCPUMsg d.Process.CPUPercent]
   else if d.Process.CPUPercent > 50 then [moderateCPUMsg d.Process.CPUPercent]
   else []) ++
  (if d.System.CPUUsage > 90 then [criticalSysCPUMsg d.System.CPUUsage]
   else if d.System.CPUUsage > 75 then [highSysCPUMsg d.System.CPUUsage]
   else [])

/-- `analyzeMemory`.  The `MemoryRSS*3` product is `uint64` multiplication,
hence taken mod `2^64`. -/
def analyzeMemory (d : InspectionData) : List String :=
  (if d.Process.MemoryPercent > 10 then
     [highProcMemMsg d.Process.MemoryPercent d.Process.MemoryRSS]
   else []) ++
  (if d.Process.MemoryVMS > d.Process.MemoryRSS * 3 % uint64Mod then
     [memLeakMsg d.Process.MemoryVMS d.Process.MemoryRSS]
   else []) ++
  (if d.System.MemoryPercent > 90 then [criticalSysMemMsg d.System.MemoryPercent]
   else if d.System.MemoryPercent > 80 then [highSysMemMsg d.System.MemoryPercent]
   else [])

/-- `analyzeProcess`.  `time.Since(CreateTime) < time.Minute` at wall-clock
instant `now` is `now - CreateTime < minuteNs`. -/
def analyzeProcess (now : Int) (d : InspectionData) : List String :=
  (if now - d.Process.CreateTime < minuteNs then [recentMsg] else []) ++
  (if goToLower d.Process.Status = "zombie" then [zombieMsg]
   else if goToLower d.Process.Status = "stopped" then [stoppedMsg]
   else []) ++
  (if d.Process.OpenFiles > 1000 then [highFDMsg d.Process.OpenFiles] else []) ++
  (if d.Process.Connections > 100 then [highConnMsg d.Process.Connections] else []) ++
  (if d.Process.Children > 50 then [manyChildMsg d.Process.Children] else [])

/-- `analyzeSystem`.  Go computes `float64(free)/float64(total)*100 < 10`;
when `total = 0` that float comparison is against NaN or infinity and never
holds, which the `0 < total` guard reproduces for the exact rationals. -/
def analyzeSystem (d : InspectionData) : List String :=
  (if d.System.CPUCores ≤ 2 ∧ d.System.CPUUsage > 60 then
     [limitedCPUMsg d.System.CPUCores d.System.CPUUsage]
   else []) ++
  (if 0 < d.System.MemoryTotal ∧
      (d.System.MemoryFree : Rat) / (d.System.MemoryTotal : Rat) * 100 < 10 then
     [lowFreeMemMsg d.System.MemoryFree d.System.MemoryTotal]
   else [])

/-- `analyzeWithRules`: the four groups concatenated in source order. -/
def analyzeWithRules (now : Int) (d : InspectionData) : List String :=
  analyzeCPU d ++ analyzeMemory d ++ analyzeProcess now d ++ analyzeSystem d

/-! ## AI-response parsing (part_003, `parseAIResponse`) -/

/-- The line loop of `parseAIResponse`, with the accumulated warnings made
explicit.  A `HEALTHY:` line returns the empty list outright, discarding the
accumulator, exactly as the Go `return []string{}` does. -/
def parseLoop : List String → List String → List String
  | [], acc => acc
  | l :: rest, acc =>
    if strHasPre (goTrim l) "WARNING:" then
      if goTrim (strTrimPre (goTrim l) "WARNING:") ≠ "" then
        parseLoop rest (acc ++ ["⚠ " ++ goTrim (strTrimPre (goTrim l) "WARNING:")])
      else parseLoop rest acc
    else if strHasPre (goTrim l) "RECOMMEND:" then
      if goTrim (strTrimPre (goTrim l) "RECOMMEND:") ≠ "" then
        parseLoop rest (acc ++ ["→ " ++ goTrim (strTrimPre (goTrim l) "RECOMMEND:")])
      else parseLoop rest acc
    else if strHasPre (goTrim l) "HEALTHY:" then []
    else parseLoop rest acc

/-- `parseAIResponse`. -/
def parseAIResponse (response : String) : List String :=
  parseLoop (goSplitLines response) []

/-! ## Dual-mode analyzer (part_003, `AIAnalyzer`, `New`, `AnalyzeAndWarn`,
`analyzeWithAI`) -/

/-- `AIAnalyzer`: the one piece of analyzer state, fixed at construction. -/
structure AIAnalyzer where
  aiEnabled : Bool
deriving DecidableEq

/-- `New`: `aiEnabled` is false when `GEMINI_API_KEY` is absent/empty or the
Gemini client fails to initialize, true otherwise. -/
def NewAnalyzer (apiKey : String) (clientInitOk : Bool) : AIAnalyzer :=
  if apiKey = "" then ⟨false⟩
  else if clientInitOk = false then ⟨false⟩
  else ⟨true⟩

/-- The Gemini response as `analyzeWithAI` sees it: a list of candidates,
each a list of content parts (rendered to text by `fmt.Sprintf("%v", ·)`). -/
structure GenResponse where
  candidates : List (List String)

/-- The backend outcomes that make `analyzeWithAI` fall back: a transport
error or timeout (`Except.error`), no candidates, or a candidate with no
parts. -/
def backendUnusable : Except Unit GenResponse → Bool
  | .error _ => true
  | .ok r =>
    match r.candidates with
    | [] => true
    | ps :: _ => ps.isEmpty

/-- `analyzeWithAI`, with the `GenerateContent` outcome passed in: on error
or an empty payload it falls back to `analyzeWithRules` for this call,
otherwise it parses the first part of the first candidate. -/
def analyzeWithAI (resp : Except Unit GenResponse) (now : Int)
    (d : InspectionData) : List String :=
  match resp with
  | .error _ => analyzeWithRules now d
  | .ok r =>
    match r.candidates with
    | [] => analyzeWithRules now d
    | ps :: _ =>
      match ps with
      | [] => analyzeWithRules now d
      | p :: _ => parseAIResponse p

/-- `AnalyzeAndWarn`, returning the findings together with the analyzer
value after the call (the method never assigns to `aiEnabled`, so the state
is returned unchanged). -/
def AnalyzeAndWarn (a : AIAnalyzer) (resp : Except Unit GenResponse)
    (now : Int) (d : InspectionData) : List String × AIAnalyzer :=
  if a.aiEnabled then (analyzeWithAI resp now d, a)
  else (analyzeWithRules now d, a)

/-! ## Snapshot builder (inspector package, `collectProcessInfo`) -/

/-- `gopsutil`'s `MemoryInfoStat`, the pointee of the `*MemoryInfoStat`
returned by `proc.MemoryInfo()`. -/
structure MemoryInfoStat where
  rss : Nat
  vms : Nat
deriving DecidableEq

/-- The outcome of each independent gopsutil attribute read performed by
`collectProcessInfo`.  `none` means the read returned an error; for the
value-typed returns Go then holds the type's zero value (modelled by
`Option.getD` below), while for `MemoryInfo` the returned pointer is nil.
The slice-valued reads (`Connections`, `OpenFiles`, `Children`) are kept as
their lengths, which is all the builder uses; a failed read yields a nil
slice of length 0. -/
structure ProcReads where
  name : Option String
  exe : Option String
  cmdline : Option String
  cwd : Option String
  status : Option String
  cpuPercent : Option Rat
  memInfo : Option MemoryInfoStat
  memPercent : Option Rat
  createTimeMs : Option Int
  connections : Option Nat
  openFiles : Option Nat
  children : Option Nat
deriving DecidableEq

/-- `collectProcessInfo`: builds the `ProcessInfo` snapshot from the
attribute reads, each error silently discarded.  When the `MemoryInfo` read
fails the Go code evaluates `memInfo.RSS` on a nil pointer and panics,
aborting the build; the embedding returns `none` for that case.
`CreateTime` is `time.Unix(createTime/1000, 0)` with `createTime` in
milliseconds and Go's `int64` division truncating toward zero
(`Int.tdiv`). -/
def collectProcessInfo (pid : Int) (r : ProcReads) : Option ProcessInfo :=
  match r.memInfo with
  | none => none
  | some mi =>
    some {
      PID := pid
      Name := r.name.getD ""
      Executable := r.exe.getD ""
      CommandLine := r.cmdline.getD ""
      WorkingDir := r.cwd.getD ""
      Status := r.status.getD ""
      CPUPercent := r.cpuPercent.getD 0
      MemoryRSS := mi.rss
      MemoryVMS := mi.vms
      MemoryPercent := r.memPercent.getD 0
      CreateTime := (Int.tdiv (r.createTimeMs.getD 0) 1000) * 1000000000
      Connections := r.connections.getD 0
      OpenFiles := r.openFiles.getD 0
      Children := r.children.getD 0 }

/-! ## Port resolver (part_004, `findProcessByPort`) -/

/-- One entry of the gopsutil connection table: the fields
`findProcessByPort` inspects. -/
structure ConnectionStat where
  laddrPort : Nat
  status : String
  pid : Int
deriving DecidableEq

/-- The outcome of `findProcessByPort`: an owning PID, or the
`"no process found listening on port %d"` error (`noListener`), or the
`"no valid process found listening on port %d"` error (`noValidProcess`). -/
inductive PortResult where
  | ok (pid : Int)
  | noListener
  | noValidProcess
deriving DecidableEq

/-- `findProcessByPort`, with the connection table and the
`process.NewProcess` existence probe passed in.  The loop over candidate
PIDs that returns the first `pid > 0` passing the probe is `List.find?`. -/
def findProcessByPort (conns : List ConnectionStat) (probe : Int → Bool)
    (port : Nat) : PortResult :=
  let candidatePIDs :=
    (conns.filter fun c => c.laddrPort == port && c.status == "LISTEN").map
      fun c => c.pid
  if candidatePIDs.isEmpty then .noListener
  else
    match candidatePIDs.find? (fun pid => decide (0 < pid) && probe pid) with
    | some pid => .ok pid
    | none => .noValidProcess

/-! ## JSON output (part_004, `outputJSON`) -/

/-- The anonymous struct marshalled by `outputJSON`: the inspection data's
process/system sub-objects plus the `warnings` array, embedded verbatim. -/
structure JSONOutput where
  process : ProcessInfo
  system : SystemInfo
  warnings : List String
deriving DecidableEq

/-- `outputJSON` (the value serialized; marshalling itself is presentation). -/
def outputJSON (data : InspectionData) (warnings : List String) : JSONOutput :=
  { process := data.Process, system := data.System, warnings := warnings }

/-! ## The specification's rule table

A second, spec-side description of the rule-based strategy, following the
table of section 4.3 of the spec: sixteen independent rules in fixed group
order (CPU, memory, process-behavior, system-health), each contributing its
finding exactly when its condition holds.  `analyzeWithRules` is proved
equal to evaluating this table (claim C8). -/

def cpuRows (d : InspectionData) : List (Bool × String) :=
  [(decide (d.Process.CPUPercent > 80), highCPUMsg d.Process.CPUPercent),
   (decide (50 < d.Process.CPUPercent ∧ d.Process.CPUPercent ≤ 80),
     moderateCPUMsg d.Process.CPUPercent),
   (decide (d.System.CPUUsage > 90), criticalSysCPUMsg d.System.CPUUsage),
   (decide (75 < d.System.CPUUsage ∧ d.System.CPUUsage ≤ 90),
     highSysCPUMsg d.System.CPUUsage)]

def memRows (d : InspectionData) : List (Bool × String) :=
  [(decide (d.Process.MemoryPercent > 10),
     highProcMemMsg d.Process.MemoryPercent d.Process.MemoryRSS),
   (decide (d.Process.MemoryVMS > d.Process.MemoryRSS * 3 % uint64Mod),
     memLeakMsg d.Process.MemoryVMS d.Process.MemoryRSS),
   (decide (d.System.MemoryPercent > 90), criticalSysMemMsg d.System.MemoryPercent),
   (decide (80 < d.System.MemoryPercent ∧ d.System.MemoryPercent ≤ 90),
     highSysMemMsg d.System.MemoryPercent)]

def procRows (now : Int) (d : InspectionData) : List (Bool × String) :=
  [(decide (now - d.Process.CreateTime < minuteNs), recentMsg),
   (decide (goToLower d.Process.Status = "zombie"), zombieMsg),
   (decide (goToLower d.Process.Status = "stopped"), stoppedMsg),
   (decide (d.Process.OpenFiles > 1000), highFDMsg d.Process.OpenFiles),
   (decide (d.Process.Connections > 100), highConnMsg d.Process.Connections),
   (decide (d.Process.Children > 50), manyChildMsg d.Process.Children)]

def sysRows (d : InspectionData) : List (Bool × String) :=
  [(decide (d.System.CPUCores ≤ 2 ∧ d.System.CPUUsage > 60),
     limitedCPUMsg d.System.CPUCores d.System.CPUUsage),
   (decide (0 < d.System.MemoryTotal ∧
      (d.System.MemoryFree : Rat) / (d.System.MemoryTotal : Rat) * 100 < 10),
     lowFreeMemMsg d.System.MemoryFree d.System.MemoryTotal)]

/-- The spec's rule table in fixed group order. -/
def ruleTable (now : Int) (d : InspectionData) : List (Bool × String) :=
  cpuRows d ++ memRows d ++ procRows now d ++ sysRows d

/-- Evaluating a rule table: every rule whose condition holds contributes
its finding, independently, in table order — no early exit. -/
def evalRules (rows : List (Bool × String)) : List String :=
  rows.filterMap fun r => if r.1 then some r.2 else none

/-- Spec-side classification of one AI-response line (section 4.3 of the
spec, amended with the nonempty-remainder condition forced by the code):
trim, classify by prefix, keep the trimmed remainder when nonempty. -/
def classifyLineSpec (l : String) : Option String :=
  if strHasPre (goTrim l) "WARNING:" then
    if goTrim (strTrimPre (goTrim l) "WARNING:") ≠ "" then
      some ("⚠ " ++ goTrim (strTrimPre (goTrim l) "WARNING:"))
    else none
  else if strHasPre (goTrim l) "RECOMMEND:" then
    if goTrim (strTrimPre (goTrim l) "RECOMMEND:") ≠ "" then
      some ("→ " ++ goTrim (strTrimPre (goTrim l) "RECOMMEND:"))
    else none
  else none

/-! ## Concrete snapshots used by counterexamples and witnesses -/

/-- A quiescent process: no rule condition holds for it. -/
def baseProc : ProcessInfo :=
  { PID := 1, Name := "proc", Executable := "/bin/proc", CommandLine := "proc",
    WorkingDir := "/", Status := "running", CPUPercent := 0, MemoryRSS := 1024,
    MemoryVMS := 1024, MemoryPercent := 0, CreateTime := 0, Connections := 0,
    OpenFiles := 0, Children := 0 }

/-- A quiescent system: no rule condition holds for it. -/
def baseSys : SystemInfo :=
  { CPUCores := 4, CPUModel := "model", CPUUsage := 0, MemoryTotal := 100,
    MemoryUsed := 50, MemoryPercent := 50, MemoryFree := 50 }

/-- A quiescent combined snapshot. -/
def baseData : InspectionData := { Process := baseProc, System := baseSys }

/-- Snapshot whose only firing rule is critical system CPU (95%). -/
def d95 : InspectionData :=
  { Process := baseProc, System := { baseSys with CPUUsage := 95 } }

/-- Snapshot with resident = 10 MB and virtual = 35 MB. -/
def d35 : InspectionData :=
  { Process := { baseProc with MemoryRSS := 10485760, MemoryVMS := 36700160 },
    System := baseSys }

/-- Snapshot with resident = 10 MB and virtual = 20 MB. -/
def d20 : InspectionData :=
  { Process := { baseProc with MemoryRSS := 10485760, MemoryVMS := 20971520 },
    System := baseSys }

/-- An evaluation instant far (1000 s) after `baseProc`'s creation time, so
the recently-started rule does not fire. -/
def lateT : Int := 1000000000000

/-- The shape of every finding `parseAIResponse` can emit: a glyph-tagged,
whitespace-trimmed, nonempty message. -/
def findingShape (w : String) : Prop :=
  ∃ m, m ≠ "" ∧ (w = "⚠ " ++ m ∨ w = "→ " ++ m)

/-! ## Helper lemmas: string prefixes -/

theorem strDataAppend (a b : String) : (a ++ b).data = a.data ++ b.data := by
  cases a; cases b; rfl

theorem hasPrefixChars_append_of_le :
    ∀ (p a b : List Char), p.length ≤ a.length →
      hasPrefixChars p (a ++ b) = hasPrefixChars p a := by
  intro p
  induction p with
  | nil => intro a b _; rfl
  | cons x xs ih =>
    intro a b h
    cases a with
    | nil => simp at h
    | cons c cs =>
      simp only [List.cons_append, hasPrefixChars, List.append_eq]
      rw [ih cs b (by simpa using h)]

theorem strHasPre_peel (a b pre : String) (h : pre.data.length ≤ a.data.length) :
    strHasPre (a ++ b) pre = strHasPre a pre := by
  unfold strHasPre
  rw [strDataAppend, hasPrefixChars_append_of_le _ _ _ h]

theorem strHasPre_cat (c rest pre : String)
    (hlen : pre.data.length ≤ c.data.length) (hc : strHasPre c pre = false) :
    strHasPre (c ++ rest) pre = false := by
  rw [strHasPre_peel _ _ _ hlen]; exact hc

theorem hasPrefixChars_self : ∀ (l m : List Char), hasPrefixChars l (l ++ m) = true := by
  intro l
  induction l with
  | nil => intro m; rfl
  | cons c cs ih => intro m; simp [hasPrefixChars, ih]

theorem strHasPre_self_cat (p s : String) : strHasPre (p ++ s) p = true := by
  unfold strHasPre; rw [strDataAppend]; exact hasPrefixChars_self _ _

/-- A line whose trimmed form begins with `HEALTHY:` begins with neither
`WARNING:` nor `RECOMMEND:` (the first characters differ), so the parser's
earlier branches cannot capture it. -/
theorem healthy_excl (l : String) (h : strHasPre l "HEALTHY:" = true) :
    strHasPre l "WARNING:" = false ∧ strHasPre l "RECOMMEND:" = false := by
  unfold strHasPre at h ⊢
  have e1 : "HEALTHY:".data = 'H' :: "EALTHY:".data := rfl
  have e2 : "WARNING:".data = 'W' :: "ARNING:".data := rfl
  have e3 : "RECOMMEND:".data = 'R' :: "ECOMMEND:".data := rfl
  rw [e1] at h; rw [e2, e3]
  cases hl : l.data with
  | nil => rw [hl] at h; simp [hasPrefixChars] at h
  | cons c cs =>
    rw [hl] at h
    simp only [hasPrefixChars, Bool.and_eq_true, beq_iff_eq] at h
    obtain ⟨hc, -⟩ := h
    subst hc
    constructor <;> simp [hasPrefixChars]

/-! ## Helper lemmas: the parse loop -/

/-- If any line of the remaining input is a `HEALTHY:` line, the loop
returns the empty list, whatever has been accumulated. -/
theorem parseLoop_healthy :
    ∀ (ls acc : List String), (∃ l ∈ ls, strHasPre (goTrim l) "HEALTHY:" = true) →
      parseLoop ls acc = [] := by
  intro ls
  induction ls with
  | nil => intro acc h; simp at h
  | cons l rest ih =>
    intro acc h
    rcases h with ⟨x, hx, hpre⟩
    rcases List.mem_cons.mp hx with rfl | hx'
    · obtain ⟨hw, hr⟩ := healthy_excl _ hpre
      simp [parseLoop, hw, hr, hpre]
    · by_cases h1 : strHasPre (goTrim l) "WARNING:" = true
      · by_cases h1b : goTrim (strTrimPre (goTrim l) "WARNING:") = ""
        · simp [parseLoop, h1, h1b]; exact ih _ ⟨x, hx', hpre⟩
        · simp [parseLoop, h1, h1b]; exact ih _ ⟨x, hx', hpre⟩
      · by_cases h2 : strHasPre (goTrim l) "RECOMMEND:" = true
        · by_cases h2b : goTrim (strTrimPre (goTrim l) "RECOMMEND:") = ""
          · simp [parseLoop, h1, h2, h2b]; exact ih _ ⟨x, hx', hpre⟩
          · simp [parseLoop, h1, h2, h2b]; exact ih _ ⟨x, hx', hpre⟩
        · by_cases h3 : strHasPre (goTrim l) "HEALTHY:" = true
          · simp [parseLoop, h1, h2, h3]
          · simp [parseLoop, h1, h2, h3]; exact ih _ ⟨x, hx', hpre⟩

/-- Without a `HEALTHY:` line the loop appends, in input order, exactly the
classification of each line. -/
theorem parseLoop_classify :
    ∀ (ls acc : List String), (∀ l ∈ ls, strHasPre (goTrim l) "HEALTHY:" = false) →
      parseLoop ls acc = acc ++ ls.filterMap classifyLineSpec := by
  intro ls
  induction ls with
  | nil => intro acc _; simp [parseLoop]
  | cons l rest ih =>
    intro acc h
    have hl : strHasPre (goTrim l) "HEALTHY:" = false := h l (List.mem_cons_self l rest)
    have hrest : ∀ x ∈ rest, strHasPre (goTrim x) "HEALTHY:" = false :=
      fun x hx => h x (List.mem_cons_of_mem l hx)
    by_cases h1 : strHasPre (goTrim l) "WARNING:" = true
    · by_cases h1b : goTrim (strTrimPre (goTrim l) "WARNING:") = ""
      · simp [parseLoop, h1, h1b, classifyLineSpec, ih _ hrest]
      · simp [parseLoop, h1, h1b, classifyLineSpec, ih _ hrest]
    · by_cases h2 : strHasPre (goTrim l) "RECOMMEND:" = true
      · by_cases h2b : goTrim (strTrimPre (goTrim l) "RECOMMEND:") = ""
        · simp [parseLoop, h1, h2, h2b, classifyLineSpec, ih _ hrest]
        · simp [parseLoop, h1, h2, h2b, classifyLineSpec, ih _ hrest]
      · simp [parseLoop, h1, h2, hl, classifyLineSpec, ih _ hrest]

/-- Everything the loop emits beyond a well-shaped accumulator is a
well-shaped finding: glyph-tagged with a nonempty message. -/
theorem parseLoop_shape :
    ∀ (ls acc : List String), (∀ w ∈ acc, findingShape w) →
      ∀ w ∈ parseLoop ls acc, findingShape w := by
  intro ls
  induction ls with
  | nil => intro acc hacc w hw; exact hacc w (by simpa [parseLoop] using hw)
  | cons l rest ih =>
    intro acc hacc w hw
    by_cases h1 : strHasPre (goTrim l) "WARNING:" = true
    · by_cases h1b : goTrim (strTrimPre (goTrim l) "WARNING:") = ""
      · simp only [parseLoop, h1, if_true, h1b, ne_eq, not_true_eq_false, if_false] at hw
        exact ih _ hacc w hw
      · simp only [parseLoop, h1, if_true, h1b, ne_eq, not_false_eq_true, if_true] at hw
        refine ih _ ?_ w hw
        intro y hy
        rcases List.mem_append.mp hy with hy' | hy'
        · exact hacc y hy'
        · rcases List.mem_singleton.mp hy' with rfl
          exact ⟨goTrim (strTrimPre (goTrim l) "WARNING:"), h1b, Or.inl rfl⟩
    · by_cases h2 : strHasPre (goTrim l) "RECOMMEND:" = true
      · by_cases h2b : goTrim (strTrimPre (goTrim l) "RECOMMEND:") = ""
        · simp only [parseLoop, h1, if_false, h2, if_true, h2b, ne_eq, not_true_eq_false,
            Bool.false_eq_true] at hw
          exact ih _ hacc w (by simpa [h1] using hw)
        · have hw' : w ∈ parseLoop rest
              (acc ++ ["→ " ++ goTrim (strTrimPre (goTrim l) "RECOMMEND:")]) := by
            simpa [parseLoop, h1, h2, h2b] using hw
          refine ih _ ?_ w hw'
          intro y hy
          rcases List.mem_append.mp hy with hy' | hy'
          · exact hacc y hy'
          · rcases List.mem_singleton.mp hy' with rfl
            exact ⟨goTrim (strTrimPre (goTrim l) "RECOMMEND:"), h2b, Or.inr rfl⟩
      · by_cases h3 : strHasPre (goTrim l) "HEALTHY:" = true
        · simp [parseLoop, h1, h2, h3] at hw
        · exact ih _ hacc w (by simpa [parseLoop, h1, h2, h3] using hw)

/-! ## Helper lemmas: the rule table -/

theorem evalRules_append (a b : List (Bool × String)) :
    evalRules (a ++ b) = evalRules a ++ evalRules b := by
  unfold evalRules; exact List.filterMap_append a b _

theorem singleRule (c : Prop) [Decidable c] (m : String) :
    (if c then [m] else []) = evalRules [(decide c, m)] := by
  by_cases h : c <;> simp [evalRules, h]

theorem elseIfPair (x a b : Rat) (m1 m2 : String) :
    (if x > a then [m1] else if x > b then [m2] else []) =
      evalRules [(decide (x > a), m1), (decide (b < x ∧ x ≤ a), m2)] := by
  by_cases h1 : x > a
  · have h2 : ¬(b < x ∧ x ≤ a) := fun hx => absurd h1 (not_lt.mpr hx.2)
    simp [evalRules, h1, h2]
  · by_cases h2 : x > b
    · have h3 : b < x ∧ x ≤ a := ⟨h2, not_lt.mp h1⟩
      simp [evalRules, h1, h2, h3]
    · have h3 : ¬(b < x ∧ x ≤ a) := fun hx => absurd hx.1 h2
      simp [evalRules, h1, h2, h3]

theorem statusPair (tl m1 m2 : String) :
    (if tl = "zombie" then [m1] else if tl = "stopped" then [m2] else []) =
      evalRules [(decide (tl = "zombie"), m1), (decide (tl = "stopped"), m2)] := by
  by_cases h1 : tl = "zombie"
  · have h2 : ¬ tl = "stopped" := by rw [h1]; decide
    simp [evalRules, h1, h2]
  · by_cases h2 : tl = "stopped" <;> simp [evalRules, h1, h2]

theorem analyzeCPU_eq (d : InspectionData) : analyzeCPU d = evalRules (cpuRows d) := by
  have h : cpuRows d =
      [(decide (d.Process.CPUPercent > 80), highCPUMsg d.Process.CPUPercent),
       (decide (50 < d.Process.CPUPercent ∧ d.Process.CPUPercent ≤ 80),
         moderateCPUMsg d.Process.CPUPercent)] ++
      [(decide (d.System.CPUUsage > 90), criticalSysCPUMsg d.System.CPUUsage),
       (decide (75 < d.System.CPUUsage ∧ d.System.CPUUsage ≤ 90),
         highSysCPUMsg d.System.CPUUsage)] := rfl
  rw [h, evalRules_append, ← elseIfPair, ← elseIfPair]
  rfl

theorem analyzeMemory_eq (d : InspectionData) : analyzeMemory d = evalRules (memRows d) := by
  have h : memRows d =
      [(decide (d.Process.MemoryPercent > 10),
         highProcMemMsg d.Process.MemoryPercent d.Process.MemoryRSS)] ++
      [(decide (d.Process.MemoryVMS > d.Process.MemoryRSS * 3 % uint64Mod),
         memLeakMsg d.Process.MemoryVMS d.Process.MemoryRSS)] ++
      [(decide (d.System.MemoryPercent > 90), criticalSysMemMsg d.System.MemoryPercent),
       (decide (80 < d.System.MemoryPercent ∧ d.System.MemoryPercent ≤ 90),
         highSysMemMsg d.System.MemoryPercent)] := rfl
  rw [h, evalRules_append, evalRules_append, ← singleRule, ← singleRule, ← elseIfPair]
  rfl

theorem analyzeProcess_eq (now : Int) (d : InspectionData) :
    analyzeProcess now d = evalRules (procRows now d) := by
  have h : procRows now d =
      [(decide (now - d.Process.CreateTime < minuteNs), recentMsg)] ++
      [(decide (goToLower d.Process.Status = "zombie"), zombieMsg),
       (decide (goToLower d.Process.Status = "stopped"), stoppedMsg)] ++
      [(decide (d.Process.OpenFiles > 1000), highFDMsg d.Process.OpenFiles)] ++
      [(decide (d.Process.Connections > 100), highConnMsg d.Process.Connections)] ++
      [(decide (d.Process.Children > 50), manyChildMsg d.Process.Children)] := rfl
  rw [h, evalRules_append, evalRules_append, evalRules_append, evalRules_append,
    ← singleRule, ← statusPair, ← singleRule, ← singleRule, ← singleRule]
  rfl

theorem analyzeSystem_eq (d : InspectionData) : analyzeSystem d = evalRules (sysRows d) := by
  have h : sysRows d =
      [(decide (d.System.CPUCores ≤ 2 ∧ d.System.CPUUsage > 60),
         limitedCPUMsg d.System.CPUCores d.System.CPUUsage)] ++
      [(decide (0 < d.System.MemoryTotal ∧
          (d.System.MemoryFree : Rat) / (d.System.MemoryTotal : Rat) * 100 < 10),
         lowFreeMemMsg d.System.MemoryFree d.System.MemoryTotal)] := rfl
  rw [h, evalRules_append, ← singleRule, ← singleRule]
  rfl

/-- The rule engine is exactly the evaluation of the spec's rule table. -/
theorem analyzeWithRules_eq_evalRules (now : Int) (d : InspectionData) :
    analyzeWithRules now d = evalRules (ruleTable now d) := by
  unfold analyzeWithRules ruleTable
  rw [evalRules_append, evalRules_append, evalRules_append,
    analyzeCPU_eq, analyzeMemory_eq, analyzeProcess_eq, analyzeSystem_eq]

/-- Every emitted warning is the message of some table rule whose condition
holds. -/
theorem mem_rules_cases (now : Int) (d : InspectionData) (w : String)
    (h : w ∈ analyzeWithRules now d) :
    ∃ r ∈ ruleTable now d, r.1 = true ∧ w = r.2 := by
  rw [analyzeWithRules_eq_evalRules] at h
  unfold evalRules at h
  rcases List.mem_filterMap.mp h with ⟨r, hr, hfr⟩
  refine ⟨r, hr, ?_⟩
  by_cases hc : r.1 = true
  · rw [if_pos hc] at hfr
    exact ⟨hc, (Option.some_injective _ hfr).symm⟩
  · rw [if_neg hc] at hfr
    exact absurd hfr (by simp)

/-! ## Helper lemmas: no rule message carries a finding glyph or the
memory-leak marker (except `memLeakMsg` itself).  Each lemma checks the
three prefixes `⚠`, `→` and `Potential memory leak` against the message's
leading constant text. -/

theorem highCPUMsg_pre (x : Rat) :
    strHasPre (highCPUMsg x) "⚠" = false ∧ strHasPre (highCPUMsg x) "→" = false ∧
      strHasPre (highCPUMsg x) "Potential memory leak" = false := by
  unfold highCPUMsg
  exact ⟨strHasPre_cat _ _ _ (by decide) (by decide),
    strHasPre_cat _ _ _ (by decide) (by decide),
    strHasPre_cat _ _ _ (by decide) (by decide)⟩

theorem moderateCPUMsg_pre (x : Rat) :
    strHasPre (moderateCPUMsg x) "⚠" = false ∧ strHasPre (moderateCPUMsg x) "→" = false ∧
      strHasPre (moderateCPUMsg x) "Potential memory leak" = false := by
  unfold moderateCPUMsg
  exact ⟨strHasPre_cat _ _ _ (by decide) (by decide),
    strHasPre_cat _ _ _ (by decide) (by decide),
    strHasPre_cat _ _ _ (by decide) (by decide)⟩

theorem criticalSysCPUMsg_pre (x : Rat) :
    strHasPre (criticalSysCPUMsg x) "⚠" = false ∧
      strHasPre (criticalSysCPUMsg x) "→" = false ∧
      strHasPre (criticalSysCPUMsg x) "Potential memory leak" = false := by
  unfold criticalSysCPUMsg
  exact ⟨strHasPre_cat _ _ _ (by decide) (by decide),
    strHasPre_cat _ _ _ (by decide) (by decide),
    strHasPre_cat _ _ _ (by decide) (by decide)⟩

theorem highSysCPUMsg_pre (x : Rat) :
    strHasPre (highSysCPUMsg x) "⚠" = false ∧ strHasPre (highSysCPUMsg x) "→" = false ∧
      strHasPre (highSysCPUMsg x) "Potential memory leak" = false := by
  unfold highSysCPUMsg
  exact ⟨strHasPre_cat _ _ _ (by decide) (by decide),
    strHasPre_cat _ _ _ (by decide) (by decide),
    strHasPre_cat _ _ _ (by decide) (by decide)⟩

theorem highProcMemMsg_pre (p : Rat) (rss : Nat) :
    strHasPre (highProcMemMsg p rss) "⚠" = false ∧
      strHasPre (highProcMemMsg p rss) "→" = false ∧
      strHasPre (highProcMemMsg p rss) "Potential memory leak" = false := by
  unfold highProcMemMsg
  exact ⟨strHasPre_cat _ _ _ (by decide) (by decide),
    strHasPre_cat _ _ _ (by decide) (by decide),
    strHasPre_cat _ _ _ (by decide) (by decide)⟩

theorem memLeakMsg_pre (vms rss : Nat) :
    strHasPre (memLeakMsg vms rss) "⚠" = false ∧
      strHasPre (memLeakMsg vms rss) "→" = false ∧
      strHasPre (memLeakMsg vms rss) "Potential memory leak" = true := by
  unfold memLeakMsg
  refine ⟨strHasPre_cat _ _ _ (by decide) (by decide),
    strHasPre_cat _ _ _ (by decide) (by decide), ?_⟩
  rw [strHasPre_peel _ _ _ (by decide)]
  decide

theorem criticalSysMemMsg_pre (p : Rat) :
    strHasPre (criticalSysMemMsg p) "⚠" = false ∧
      strHasPre (criticalSysMemMsg p) "→" = false ∧
      strHasPre (criticalSysMemMsg p) "Potential memory leak" = false := by
  unfold criticalSysMemMsg
  exact ⟨strHasPre_cat _ _ _ (by decide) (by decide),
    strHasPre_cat _ _ _ (by decide) (by decide),
    strHasPre_cat _ _ _ (by decide) (by decide)⟩

theorem highSysMemMsg_pre (p : Rat) :
    strHasPre (highSysMemMsg p) "⚠" = false ∧ strHasPre (highSysMemMsg p) "→" = false ∧
      strHasPre (highSysMemMsg p) "Potential memory leak" = false := by
  unfold highSysMemMsg
  exact ⟨strHasPre_cat _ _ _ (by decide) (by decide),
    strHasPre_cat _ _ _ (by decide) (by decide),
    strHasPre_cat _ _ _ (by decide) (by decide)⟩

theorem recentMsg_pre :
    strHasPre recentMsg "⚠" = false ∧ strHasPre recentMsg "→" = false ∧
      strHasPre recentMsg "Potential memory leak" = false := by decide

theorem zombieMsg_pre :
    strHasPre zombieMsg "⚠" = false ∧ strHasPre zombieMsg "→" = false ∧
      strHasPre zombieMsg "Potential memory leak" = false := by decide

theorem stoppedMsg_pre :
    strHasPre stoppedMsg "⚠" = false ∧ strHasPre stoppedMsg "→" = false ∧
      strHasPre stoppedMsg "Potential memory leak" = false := by decide

theorem highFDMsg_pre (n : Nat) :
    strHasPre (highFDMsg n) "⚠" = false ∧ strHasPre (highFDMsg n) "→" = false ∧
      strHasPre (highFDMsg n) "Potential memory leak" = false := by
  unfold highFDMsg
  exact ⟨strHasPre_cat _ _ _ (by decide) (by decide),
    strHasPre_cat _ _ _ (by decide) (by decide),
    strHasPre_cat _ _ _ (by decide) (by decide)⟩

theorem highConnMsg_pre (n : Nat) :
    strHasPre (highConnMsg n) "⚠" = false ∧ strHasPre (highConnMsg n) "→" = false ∧
      strHasPre (highConnMsg n) "Potential memory leak" = false := by
  unfold highConnMsg
  exact ⟨strHasPre_cat _ _ _ (by decide) (by decide),
    strHasPre_cat _ _ _ (by decide) (by decide),
    strHasPre_cat _ _ _ (by decide) (by decide)⟩

theorem manyChildMsg_pre (n : Nat) :
    strHasPre (manyChildMsg n) "⚠" = false ∧ strHasPre (manyChildMsg n) "→" = false ∧
      strHasPre (manyChildMsg n) "Potential memory leak" = false := by
  unfold manyChildMsg
  exact ⟨strHasPre_cat _ _ _ (by decide) (by decide),
    strHasPre_cat _ _ _ (by decide) (by decide),
    strHasPre_cat _ _ _ (by decide) (by decide)⟩

theorem limitedCPUMsg_pre (cores : Nat) (u : Rat) :
    strHasPre (limitedCPUMsg cores u) "⚠" = false ∧
      strHasPre (limitedCPUMsg cores u) "→" = false ∧
      strHasPre (limitedCPUMsg cores u) "Potential memory leak" = false := by
  unfold limitedCPUMsg
  exact ⟨strHasPre_cat _ _ _ (by decide) (by decide),
    strHasPre_cat _ _ _ (by decide) (by decide),
    strHasPre_cat _ _ _ (by decide) (by decide)⟩

theorem lowFreeMemMsg_pre (free total : Nat) :
    strHasPre (lowFreeMemMsg free total) "⚠" = false ∧
      strHasPre (lowFreeMemMsg free total) "→" = false ∧
      strHasPre (lowFreeMemMsg free total) "Potential memory leak" = false := by
  unfold lowFreeMemMsg
  exact ⟨strHasPre_cat _ _ _ (by decide) (by decide),
    strHasPre_cat _ _ _ (by decide) (by decide),
    strHasPre_cat _ _ _ (by decide) (by decide)⟩

/-- No rule-based warning starts with either finding glyph. -/
theorem rules_no_glyph (now : Int) (d : InspectionData) (w : String)
    (h : w ∈ analyzeWithRules now d) :
    strHasPre w "⚠" = false ∧ strHasPre w "→" = false := by
  rcases mem_rules_cases now d w h with ⟨⟨c, m⟩, hr, hc, hw⟩
  replace hw : w = m := hw
  subst hw
  simp only [ruleTable, cpuRows, memRows, procRows, sysRows, List.mem_append,
    List.mem_cons, List.not_mem_nil, or_false, Prod.mk.injEq] at hr
  rcases hr with
    (((⟨rfl, rfl⟩ | ⟨rfl, rfl⟩ | ⟨rfl, rfl⟩ | ⟨rfl, rfl⟩) |
      (⟨rfl, rfl⟩ | ⟨rfl, rfl⟩ | ⟨rfl, rfl⟩ | ⟨rfl, rfl⟩)) |
      (⟨rfl, rfl⟩ | ⟨rfl, rfl⟩ | ⟨rfl, rfl⟩ | ⟨rfl, rfl⟩ | ⟨rfl, rfl⟩ | ⟨rfl, rfl⟩)) |
      (⟨rfl, rfl⟩ | ⟨rfl, rfl⟩)
  · exact ⟨(highCPUMsg_pre _).1, (highCPUMsg_pre _).2.1⟩
  · exact ⟨(moderateCPUMsg_pre _).1, (moderateCPUMsg_pre _).2.1⟩
  · exact ⟨(criticalSysCPUMsg_pre _).1, (criticalSysCPUMsg_pre _).2.1⟩
  · exact ⟨(highSysCPUMsg_pre _).1, (highSysCPUMsg_pre _).2.1⟩
  · exact ⟨(highProcMemMsg_pre _ _).1, (highProcMemMsg_pre _ _).2.1⟩
  · exact ⟨(memLeakMsg_pre _ _).1, (memLeakMsg_pre _ _).2.1⟩
  · exact ⟨(criticalSysMemMsg_pre _).1, (criticalSysMemMsg_pre _).2.1⟩
  · exact ⟨(highSysMemMsg_pre _).1, (highSysMemMsg_pre _).2.1⟩
  · exact ⟨recentMsg_pre.1, recentMsg_pre.2.1⟩
  · exact ⟨zombieMsg_pre.1, zombieMsg_pre.2.1⟩
  · exact ⟨stoppedMsg_pre.1, stoppedMsg_pre.2.1⟩
  · exact ⟨(highFDMsg_pre _).1, (highFDMsg_pre _).2.1⟩
  · exact ⟨(highConnMsg_pre _).1, (highConnMsg_pre _).2.1⟩
  · exact ⟨(manyChildMsg_pre _).1, (manyChildMsg_pre _).2.1⟩
  · exact ⟨(limitedCPUMsg_pre _ _).1, (limitedCPUMsg_pre _ _).2.1⟩
  · exact ⟨(lowFreeMemMsg_pre _ _).1, (lowFreeMemMsg_pre _ _).2.1⟩

/-- The potential-memory-leak marker appears among the rule-based warnings
exactly when the (wrap-around) leak condition holds; no other rule message
carries that marker. -/
theorem leak_marker_iff (now : Int) (d : InspectionData) :
    (∃ w ∈ analyzeWithRules now d, strHasPre w "Potential memory leak" = true) ↔
      d.Process.MemoryVMS > d.Process.MemoryRSS * 3 % uint64Mod := by
  constructor
  · rintro ⟨w, hmem, hpref⟩
    rcases mem_rules_cases now d w hmem with ⟨⟨c, m⟩, hr, hc, hw⟩
    replace hw : w = m := hw
    subst hw
    simp only [ruleTable, cpuRows, memRows, procRows, sysRows, List.mem_append,
      List.mem_cons, List.not_mem_nil, or_false, Prod.mk.injEq] at hr
    rcases hr with
      (((⟨rfl, rfl⟩ | ⟨rfl, rfl⟩ | ⟨rfl, rfl⟩ | ⟨rfl, rfl⟩) |
        (⟨rfl, rfl⟩ | ⟨rfl, rfl⟩ | ⟨rfl, rfl⟩ | ⟨rfl, rfl⟩)) |
        (⟨rfl, rfl⟩ | ⟨rfl, rfl⟩ | ⟨rfl, rfl⟩ | ⟨rfl, rfl⟩ | ⟨rfl, rfl⟩ | ⟨rfl, rfl⟩)) |
        (⟨rfl, rfl⟩ | ⟨rfl, rfl⟩)
    · simp [(highCPUMsg_pre _).2.2] at hpref
    · simp [(moderateCPUMsg_pre _).2.2] at hpref
    · simp [(criticalSysCPUMsg_pre _).2.2] at hpref
    · simp [(highSysCPUMsg_pre _).2.2] at hpref
    · simp [(highProcMemMsg_pre _ _).2.2] at hpref
    · exact of_decide_eq_true hc
    · simp [(criticalSysMemMsg_pre _).2.2] at hpref
    · simp [(highSysMemMsg_pre _).2.2] at hpref
    · simp [recentMsg_pre.2.2] at hpref
    · simp [zombieMsg_pre.2.2] at hpref
    · simp [stoppedMsg_pre.2.2] at hpref
    · simp [(highFDMsg_pre _).2.2] at hpref
    · simp [(highConnMsg_pre _).2.2] at hpref
    · simp [(manyChildMsg_pre _).2.2] at hpref
    · simp [(limitedCPUMsg_pre _ _).2.2] at hpref
    · simp [(lowFreeMemMsg_pre _ _).2.2] at hpref
  · intro hleak
    refine ⟨memLeakMsg d.Process.MemoryVMS d.Process.MemoryRSS, ?_, (memLeakMsg_pre _ _).2.2⟩
    unfold analyzeWithRules analyzeMemory
    simp [hleak]

/-! ## Claim theorems -/

/-- Claim C1 (code bug): the snapshot build does NOT survive every single
attribute-read failure.  First conjunct, the failing input: with every read
succeeding except `MemoryInfo` (whose nil result the Go code dereferences),
the build aborts instead of zero-filling the memory fields.  Second
conjunct, the behaviour the claim correctly describes for all other
attributes: when every value-typed read fails but `MemoryInfo` succeeds,
the build succeeds and each failed field holds its type's zero value. -/
theorem collectProcessInfo_memInfo_failure_aborts :
    collectProcessInfo 1234
      { name := some "bash", exe := some "/bin/bash", cmdline := some "bash -l",
        cwd := some "/home", status := some "running", cpuPercent := some 1,
        memInfo := none, memPercent := some 2, createTimeMs := some 1700000000000,
        connections := some 3, openFiles := some 4, children := some 5 } = none ∧
    collectProcessInfo 1234
      { name := none, exe := none, cmdline := none, cwd := none, status := none,
        cpuPercent := none, memInfo := some ⟨2048, 4096⟩, memPercent := none,
        createTimeMs := none, connections := none, openFiles := none,
        children := none } =
      some { PID := 1234, Name := "", Executable := "", CommandLine := "",
             WorkingDir := "", Status := "", CPUPercent := 0, MemoryRSS := 2048,
             MemoryVMS := 4096, MemoryPercent := 0, CreateTime := 0,
             Connections := 0, OpenFiles := 0, Children := 0 } :=
  ⟨rfl, rfl⟩

/-- Claim C2, counterexample: the rule-only analyzer is NOT a function of
the snapshot alone.  On the same quiescent snapshot, a call at the
snapshot's creation instant emits the recently-started warning while a call
1000 s later does not. -/
theorem analyzeWithRules_time_dependent :
    (AnalyzeAndWarn ⟨false⟩ (.error ()) 0 baseData).1 ≠
      (AnalyzeAndWarn ⟨false⟩ (.error ()) lateT baseData).1 := by
  with_unfolding_all decide

/-- Claim C2, amended: in RuleOnly state the analyzer is a deterministic
function of the snapshot and the evaluation instant, and it depends on the
instant only through the process-age test `now - CreateTime < 60 s`: two
calls whose age tests agree yield identical ordered finding lists. -/
theorem analyzeAndWarn_ruleOnly_age_determined (a : AIAnalyzer)
    (resp : Except Unit GenResponse) (d : InspectionData) (t1 t2 : Int)
    (ha : a.aiEnabled = false)
    (h : (t1 - d.Process.CreateTime < minuteNs) ↔ (t2 - d.Process.CreateTime < minuteNs)) :
    (AnalyzeAndWarn a resp t1 d).1 = (AnalyzeAndWarn a resp t2 d).1 := by
  simp only [AnalyzeAndWarn, ha, Bool.false_eq_true, if_false]
  by_cases hc : t1 - d.Process.CreateTime < minuteNs
  · simp [analyzeWithRules, analyzeProcess, hc, h.mp hc]
  · have hc2 : ¬(t2 - d.Process.CreateTime < minuteNs) := fun hx => hc (h.mpr hx)
    simp [analyzeWithRules, analyzeProcess, hc, hc2]

/-- Witness for the amended C2 at concrete inputs: both instants lie within
the first minute of the process's life, so the outputs agree. -/
theorem analyzeAndWarn_ruleOnly_age_determined_witness :
    (AnalyzeAndWarn ⟨false⟩ (.error ()) 0 baseData).1 =
      (AnalyzeAndWarn ⟨false⟩ (.error ()) 1000000000 baseData).1 :=
  analyzeAndWarn_ruleOnly_age_determined ⟨false⟩ (.error ()) baseData 0 1000000000 rfl
    (by decide)

/-- Claim C3, counterexample: a JSON inspection whose findings come from
the rule-based strategy carries a warning string with NO glyph prefix: on a
snapshot with 95% system CPU, the single warning in the emitted `warnings`
array starts with the plain text `Critical system CPU load`, not with `⚠`
or `→`. -/
theorem outputJSON_rule_warnings_lack_glyph :
    (outputJSON d95 (AnalyzeAndWarn ⟨false⟩ (.error ()) lateT d95).1).warnings =
      [criticalSysCPUMsg 95] ∧
    strHasPre (criticalSysCPUMsg 95) "⚠" = false ∧
    strHasPre (criticalSysCPUMsg 95) "→" = false := by
  with_unfolding_all decide

/-- Claim C3, amended: `outputJSON` embeds the finding list verbatim, and a
warning string carries a distinguishing glyph prefix (`⚠ ` for Warning,
`→ ` for Recommendation) exactly when it was produced by the AI parsing
path; the rule-based strategy's strings carry no glyph. -/
theorem warnings_glyph_only_ai_path :
    (∀ (d : InspectionData) (ws : List String), (outputJSON d ws).warnings = ws) ∧
    (∀ (resp w : String), w ∈ parseAIResponse resp →
      strHasPre w "⚠ " = true ∨ strHasPre w "→ " = true) ∧
    (∀ (now : Int) (d : InspectionData) (w : String), w ∈ analyzeWithRules now d →
      strHasPre w "⚠" = false ∧ strHasPre w "→" = false) := by
  refine ⟨fun d ws => rfl, ?_, fun now d w h => rules_no_glyph now d w h⟩
  intro resp w hw
  rcases parseLoop_shape (goSplitLines resp) [] (by simp) w hw with ⟨m, -, hm | hm⟩
  · subst hm; exact Or.inl (strHasPre_self_cat _ _)
  · subst hm; exact Or.inr (strHasPre_self_cat _ _)

/-- Witness for the amended C3 at concrete inputs. -/
theorem warnings_glyph_only_ai_path_witness :
    (outputJSON baseData ["x"]).warnings = ["x"] ∧
    (strHasPre "⚠ X" "⚠ " = true ∨ strHasPre "⚠ X" "→ " = true) ∧
    (strHasPre recentMsg "⚠" = false ∧ strHasPre recentMsg "→" = false) :=
  ⟨warnings_glyph_only_ai_path.1 baseData ["x"],
   warnings_glyph_only_ai_path.2.1 "WARNING: X" "⚠ X" (by decide),
   warnings_glyph_only_ai_path.2.2 0 baseData recentMsg (by with_unfolding_all decide)⟩

/-- Claim C4: the port-resolution contract.  Candidates are the pids of the
table entries whose local port matches and whose state is `LISTEN`, in
table order.  (1) An empty candidate set yields the no-listener error (so
no identifier is ever returned there); (2) the result is the FIRST
candidate (`List.find?`) that is strictly positive and passes the existence
probe; (3) a nonempty candidate set in which no pid is positive-and-alive
yields the distinct no-valid-process error; (4) a table whose only
listening entry on the port has a positive, live pid resolves to that
pid. -/
theorem findProcessByPort_contract (conns : List ConnectionStat)
    (probe : Int → Bool) (port : Nat) :
    (((conns.filter fun c => c.laddrPort == port && c.status == "LISTEN").map
        fun c => c.pid) = [] →
      findProcessByPort conns probe port = .noListener) ∧
    (∀ pid,
      ((conns.filter fun c => c.laddrPort == port && c.status == "LISTEN").map
          fun c => c.pid).find? (fun p => decide (0 < p) && probe p) = some pid →
      findProcessByPort conns probe port = .ok pid) ∧
    (((conns.filter fun c => c.laddrPort == port && c.status == "LISTEN").map
        fun c => c.pid) ≠ [] →
      (∀ pid ∈ (conns.filter fun c => c.laddrPort == port && c.status == "LISTEN").map
          fun c => c.pid, ¬(0 < pid ∧ probe pid = true)) →
      findProcessByPort conns probe port = .noValidProcess) ∧
    (∀ c, conns.filter (fun c => c.laddrPort == port && c.status == "LISTEN") = [c] →
      0 < c.pid → probe c.pid = true →
      findProcessByPort conns probe port = .ok c.pid) := by
  refine ⟨?_, ?_, ?_, ?_⟩
  · intro h
    unfold findProcessByPort
    simp [h]
  · intro pid h
    have hne := List.ne_nil_of_mem (List.mem_of_find?_eq_some h)
    unfold findProcessByPort
    rw [if_neg (by simpa [List.isEmpty_iff] using hne), h]
  · intro hne hall
    have hfind :
        ((conns.filter fun c => c.laddrPort == port && c.status == "LISTEN").map
            fun c => c.pid).find? (fun p => decide (0 < p) && probe p) = none := by
      rw [List.find?_eq_none]
      intro x hx
      simpa [not_and] using hall x hx
    unfold findProcessByPort
    rw [if_neg (by simpa [List.isEmpty_iff] using hne), hfind]
  · intro c hfilter hpos hprobe
    have hc : ((conns.filter fun c => c.laddrPort == port && c.status == "LISTEN").map
        fun c => c.pid) = [c.pid] := by rw [hfilter]; rfl
    unfold findProcessByPort
    rw [if_neg (by simp [hc]), hc]
    simp [List.find?, hpos, hprobe]

/-- Witness for C4: a one-entry table listening on 8080 with live pid 42
resolves to 42. -/
theorem findProcessByPort_contract_witness :
    findProcessByPort [⟨8080, "LISTEN", 42⟩] (fun p => p == 42) 8080 = .ok 42 :=
  (findProcessByPort_contract _ _ _).2.2.2 ⟨8080, "LISTEN", 42⟩ rfl (by decide) (by decide)

/-- Claim C5: when the analyzer is AIReady and the backend call fails or
returns an empty payload, the call's result is exactly the rule-based
result on the same snapshot, and the analyzer state (fixed at construction)
is returned unchanged — the second conjunct holds for every call, usable or
not.  `AnalyzeAndWarn` is total, so no failure reaches the caller. -/
theorem analyzeAndWarn_fallback (a : AIAnalyzer) (resp : Except Unit GenResponse)
    (now : Int) (d : InspectionData) :
    ((a.aiEnabled = true ∧ backendUnusable resp = true) →
      AnalyzeAndWarn a resp now d = (analyzeWithRules now d, a)) ∧
    (AnalyzeAndWarn a resp now d).2 = a := by
  constructor
  · rintro ⟨ha, hu⟩
    cases resp with
    | error e => simp [AnalyzeAndWarn, analyzeWithAI, ha]
    | ok r =>
      cases hc : r.candidates with
      | nil => simp [AnalyzeAndWarn, analyzeWithAI, ha, hc]
      | cons ps rest =>
        cases hps : ps with
        | nil => simp [AnalyzeAndWarn, analyzeWithAI, ha, hc, hps]
        | cons p pr =>
          simp [backendUnusable, hc, hps] at hu
  · unfold AnalyzeAndWarn
    split <;> rfl

/-- Witness for C5: a freshly constructed AIReady analyzer falling back on
a transport error. -/
theorem analyzeAndWarn_fallback_witness :
    AnalyzeAndWarn (NewAnalyzer "key" true) (.error ()) lateT baseData =
      (analyzeWithRules lateT baseData, NewAnalyzer "key" true) :=
  (analyzeAndWarn_fallback _ _ _ _).1 ⟨by decide, rfl⟩

/-- Claim C6: any response containing a line whose trimmed form begins with
`HEALTHY:` parses to the empty finding list, whatever appears before or
after that line. -/
theorem parseAIResponse_healthy_short_circuit (resp : String)
    (h : ∃ l ∈ goSplitLines resp, strHasPre (goTrim l) "HEALTHY:" = true) :
    parseAIResponse resp = [] :=
  parseLoop_healthy _ _ h

/-- Witness for C6: the healthy line wins even between a warning and a
recommendation line. -/
theorem parseAIResponse_healthy_short_circuit_witness :
    parseAIResponse "WARNING: X\nHEALTHY: no issues\nRECOMMEND: Y" = [] :=
  parseAIResponse_healthy_short_circuit _ (by decide)

/-- Claim C7, counterexample: a response that is the single line `WARNING:`
is a `WARNING:`-prefixed line, yet parsing yields NO finding for it — the
claim's "maps each WARNING:-prefixed line to a Warning finding" fails on
lines whose remaining text is empty. -/
theorem parseAIResponse_bare_warning_dropped :
    goSplitLines "WARNING:" = ["WARNING:"] ∧
    strHasPre (goTrim "WARNING:") "WARNING:" = true ∧
    parseAIResponse "WARNING:" = [] := by decide

/-- Claim C7, amended: for every response with no `HEALTHY:` line, parsing
equals splitting on newlines and classifying each line in order — trim,
map `WARNING:`-prefixed lines with NONEMPTY remaining text to Warning
findings and `RECOMMEND:`-prefixed lines with nonempty remaining text to
Recommendation findings, and drop every other line (including bare
prefixed lines); in particular `WARNING: X\nRECOMMEND: Y` yields exactly a
Warning then a Recommendation. -/
theorem parseAIResponse_classification (resp : String)
    (h : ∀ l ∈ goSplitLines resp, strHasPre (goTrim l) "HEALTHY:" = false) :
    parseAIResponse resp = (goSplitLines resp).filterMap classifyLineSpec ∧
    parseAIResponse "WARNING: X\nRECOMMEND: Y" = ["⚠ X", "→ Y"] :=
  ⟨parseLoop_classify _ _ h, by decide⟩

/-- Witness for the amended C7 at a concrete two-line response. -/
theorem parseAIResponse_classification_witness :
    parseAIResponse "WARNING: X\nRECOMMEND: Y" =
      (goSplitLines "WARNING: X\nRECOMMEND: Y").filterMap classifyLineSpec :=
  (parseAIResponse_classification "WARNING: X\nRECOMMEND: Y" (by decide)).1

/-- Claim C8: the rule-based output is the concatenation, in fixed order,
of the CPU, memory, process-behavior and system-health groups (first
conjunct); it equals the independent evaluation of the spec's sixteen-row
rule table in that fixed order — every rule whose condition holds
contributes its finding, with no early exit (second conjunct); and whenever
system CPU% exceeds 90 the critical-system-CPU finding occurs before every
finding of the memory, process-behavior and system-health groups (third
conjunct). -/
theorem analyzeWithRules_groups_and_priority (now : Int) (d : InspectionData) :
    (analyzeWithRules now d =
      analyzeCPU d ++ analyzeMemory d ++ analyzeProcess now d ++ analyzeSystem d) ∧
    (analyzeWithRules now d = evalRules (ruleTable now d)) ∧
    (d.System.CPUUsage > 90 → ∃ pre,
      analyzeWithRules now d =
        pre ++ criticalSysCPUMsg d.System.CPUUsage ::
          (analyzeMemory d ++ analyzeProcess now d ++ analyzeSystem d)) := by
  refine ⟨rfl, analyzeWithRules_eq_evalRules now d, ?_⟩
  intro h
  refine ⟨(if d.Process.CPUPercent > 80 then [highCPUMsg d.Process.CPUPercent]
    else if d.Process.CPUPercent > 50 then [moderateCPUMsg d.Process.CPUPercent]
    else []), ?_⟩
  unfold analyzeWithRules analyzeCPU
  rw [if_pos h]
  simp [List.append_assoc]

/-- Witness for C8 on the 95%-system-CPU snapshot. -/
theorem analyzeWithRules_groups_and_priority_witness :
    ∃ pre, analyzeWithRules lateT d95 =
      pre ++ criticalSysCPUMsg d95.System.CPUUsage ::
        (analyzeMemory d95 ++ analyzeProcess lateT d95 ++ analyzeSystem d95) :=
  (analyzeWithRules_groups_and_priority lateT d95).2.2 (by with_unfolding_all decide)

/-- Claim C9: the potential-memory-leak finding is emitted exactly when the
process's virtual memory strictly exceeds three times its resident memory,
both as unsigned 64-bit byte counts with the triple taken mod `2^64` (first
conjunct); in particular resident = 10 MB with virtual = 35 MB triggers it
(second conjunct) and resident = 10 MB with virtual = 20 MB does not
(third conjunct). -/
theorem memLeak_rule_iff :
    (∀ (now : Int) (d : InspectionData),
      (∃ w ∈ analyzeWithRules now d, strHasPre w "Potential memory leak" = true) ↔
        d.Process.MemoryVMS > d.Process.MemoryRSS * 3 % uint64Mod) ∧
    (∃ w ∈ analyzeWithRules lateT d35, strHasPre w "Potential memory leak" = true) ∧
    ¬(∃ w ∈ analyzeWithRules lateT d20, strHasPre w "Potential memory leak" = true) :=
  ⟨leak_marker_iff, by with_unfolding_all decide, by with_unfolding_all decide⟩

/-- Witness for C9: applying the equivalence at the 35 MB/10 MB snapshot. -/
theorem memLeak_rule_iff_witness :
    d35.Process.MemoryVMS > d35.Process.MemoryRSS * 3 % uint64Mod :=
  (memLeak_rule_iff.1 lateT d35).mp (by with_unfolding_all decide)

/-- Claim C10: a line that is only a bare prefix produces no finding (first
conjunct, for a bare `WARNING:` line and a whitespace-padded bare
`RECOMMEND:` line), and in general every parsed finding is a glyph-tagged
NONEMPTY message — the output never contains a finding with an empty
message (second conjunct). -/
theorem parseAIResponse_no_empty_findings :
    (parseAIResponse "WARNING:" = [] ∧ parseAIResponse "  RECOMMEND:   " = []) ∧
    ∀ (resp w : String), w ∈ parseAIResponse resp → findingShape w := by
  refine ⟨⟨by decide, by decide⟩, ?_⟩
  intro resp w hw
  exact parseLoop_shape _ [] (by simp) w hw

/-- Witness for C10: the finding parsed from `WARNING: X` is well-shaped. -/
theorem parseAIResponse_no_empty_findings_witness :
    findingShape "⚠ X" :=
  parseAIResponse_no_empty_findings.2 "WARNING: X" "⚠ X" (by decide)
